import Mathlib

/-!
Shallow embedding of the binaural-beat render server (`verify_beats.js`,
Express server part): parameter resolution, duration resolution, signal
graph construction, naming/labeling, and the render orchestrator's
cleanup/error event handling.  JavaScript numbers are modelled as exact
rationals (`ℚ`) together with the non-finite values `NaN` and `±Infinity`;
JavaScript's `Number(string)` conversion is modelled by an executable
parser of the ECMAScript string-numeric-literal grammar.
-/

-- Batteries marks the arithmetic of `Rat` irreducible; restore kernel
-- reducibility so that concrete rational computations can be settled by
-- `decide`.
attribute [local semireducible] Rat.add Rat.mul Rat.inv Rat.sub

namespace VerifyBeats

/-- A JavaScript number: `NaN`, `±Infinity`, or a finite value (modelled
exactly as a rational). -/
inductive JSNum : Type where
  | nan : JSNum
  | inf : JSNum
  | negInf : JSNum
  | fin : ℚ → JSNum
deriving DecidableEq, Repr

/-- A raw request-body field: either absent (`undefined`) or a string, as
delivered by the multipart form parser. -/
inductive JSVal : Type where
  | undef : JSVal
  | str : String → JSVal
deriving DecidableEq, Repr

/-- ECMAScript white space / line terminators stripped by `ToNumber`. -/
def isWhite (c : Char) : Bool :=
  c = ' ' || c = '\t' || c = '\n' || c = '\r' ||
  c = '\x0b' || c = '\x0c' || c = ' ' || c = '﻿'

/-- Strip leading and trailing white space. -/
def trimWhite (l : List Char) : List Char :=
  ((l.dropWhile isWhite).reverse.dropWhile isWhite).reverse

def isDigit (c : Char) : Bool := '0' ≤ c && c ≤ '9'

def digitVal (c : Char) : ℕ := c.toNat - 48

/-- Value of a list of decimal digit characters. -/
def digitsVal (l : List Char) : ℕ :=
  l.foldl (fun acc c => 10 * acc + digitVal c) 0

/-- Value of one digit in the given radix (hex digits allowed both cases),
`none` if the character is not a digit of that radix. -/
def radixDigitVal (radix : ℕ) (c : Char) : Option ℕ :=
  let v : Option ℕ :=
    if '0' ≤ c && c ≤ '9' then some (c.toNat - 48)
    else if 'a' ≤ c && c ≤ 'f' then some (c.toNat - 87)
    else if 'A' ≤ c && c ≤ 'F' then some (c.toNat - 55)
    else none
  match v with
  | some d => if d < radix then some d else none
  | none => none

/-- Parse a non-empty run of digits in the given radix (the whole list
must be consumed). -/
def parseRadixDigits (radix : ℕ) (l : List Char) : Option ℚ :=
  if l.isEmpty then none
  else
    (l.foldl (fun acc c =>
      match acc, radixDigitVal radix c with
      | some a, some d => some (radix * a + d)
      | _, _ => none) (some (0 : ℕ))).map (fun n => (n : ℚ))

/-- `10 ^ e` over ℚ for an integer exponent, via `Nat` powers only (keeps
kernel reduction simple). -/
def pow10 (e : ℤ) : ℚ :=
  if 0 ≤ e then ((10 : ℚ) ^ e.toNat) else 1 / (10 : ℚ) ^ (-e).toNat

/-- Parse the optional exponent part of a decimal literal; the whole list
must be consumed.  An empty list means exponent `0`. -/
def parseExpTail (l : List Char) : Option ℤ :=
  match l with
  | [] => some 0
  | c :: rest =>
    if c = 'e' || c = 'E' then
      match rest with
      | '+' :: ds =>
        if !ds.isEmpty && ds.all isDigit then some ((digitsVal ds : ℤ)) else none
      | '-' :: ds =>
        if !ds.isEmpty && ds.all isDigit then some (-(digitsVal ds : ℤ)) else none
      | ds =>
        if !ds.isEmpty && ds.all isDigit then some ((digitsVal ds : ℤ)) else none
    else none

/-- Parse an unsigned ECMAScript decimal literal (`digits`, `digits.digits?`,
`.digits`, each with an optional exponent); the whole list must be
consumed. -/
def parseUnsignedDec (l : List Char) : Option ℚ :=
  let ip := l.takeWhile isDigit
  let rest := l.dropWhile isDigit
  match rest with
  | '.' :: rest2 =>
    let fp := rest2.takeWhile isDigit
    let rest3 := rest2.dropWhile isDigit
    if ip.isEmpty && fp.isEmpty then none
    else (parseExpTail rest3).map (fun e =>
      ((digitsVal ip : ℚ) + (digitsVal fp : ℚ) / 10 ^ fp.length) * pow10 e)
  | _ =>
    if ip.isEmpty then none
    else (parseExpTail rest).map (fun e => (digitsVal ip : ℚ) * pow10 e)

/-- Parse an unsigned numeric literal: a `0x`/`0o`/`0b` radix literal or a
decimal literal. -/
def parseUnsigned (l : List Char) : Option ℚ :=
  match l with
  | '0' :: c :: rest =>
    if c = 'x' || c = 'X' then parseRadixDigits 16 rest
    else if c = 'o' || c = 'O' then parseRadixDigits 8 rest
    else if c = 'b' || c = 'B' then parseRadixDigits 2 rest
    else parseUnsignedDec ('0' :: c :: rest)
  | _ => parseUnsignedDec l

/-- The part after an explicit `+`/`-` sign: `Infinity` or a decimal
literal (radix literals may not be signed). -/
def signedTail (r : List Char) (neg : Bool) : JSNum :=
  if r = "Infinity".data then (if neg then .negInf else .inf)
  else
    match parseUnsignedDec r with
    | some q => .fin (if neg then -q else q)
    | none => .nan

/-- ECMAScript `Number(value)` for the values a form field can take:
`undefined` converts to `NaN`; a string is trimmed, the empty remainder
converts to `0`, otherwise the string-numeric-literal grammar applies and
anything else is `NaN`. -/
def toNumber : JSVal → JSNum
  | .undef => .nan
  | .str s =>
    let t := trimWhite s.data
    if t.isEmpty then .fin 0
    else
      match t with
      | '+' :: r => signedTail r false
      | '-' :: r => signedTail r true
      | _ =>
        if t = "Infinity".data then .inf
        else
          match parseUnsigned t with
          | some q => .fin q
          | none => .nan

/-- Source `num(value, def, min, max)`: parse with `Number`, return the
default when the result is not finite, otherwise clamp with
`Math.min(Math.max(v, min), max)`. -/
def num (value : JSVal) (dflt : JSNum) (lo hi : ℚ) : JSNum :=
  match toNumber value with
  | .fin v => .fin (min (max v lo) hi)
  | _ => dflt

/-- `num` specialised to a finite default, returning the rational directly
(the handler's six plain numeric fields always take this form). -/
def numQ (value : JSVal) (d lo hi : ℚ) : ℚ :=
  match toNumber value with
  | .fin v => min (max v lo) hi
  | _ => d

theorem num_fin_eq (value : JSVal) (d lo hi : ℚ) :
    num value (.fin d) lo hi = .fin (numQ value d lo hi) := by
  unfold num numQ
  cases toNumber value <;> rfl

/-- Source `bandLabel(beatHz)`, branch order as written. -/
def bandLabel (beatHz : ℚ) : String :=
  if 12 ≤ beatHz ∧ beatHz ≤ 20 then "Beta"
  else if 8 ≤ beatHz ∧ beatHz < 12 then "Alpha"
  else if 4 ≤ beatHz ∧ beatHz < 8 then "Theta"
  else if beatHz < 4 then "Delta"
  else "Custom"

/-- Executable floor of a rational (`⌊q⌋`, see `jfloor_eq`). -/
def jfloor (q : ℚ) : ℤ := q.num / q.den

theorem jfloor_eq (q : ℚ) : jfloor q = ⌊q⌋ := Rat.floor_def.symm

/-- JavaScript `Math.round`: `⌊x + 1/2⌋` (ties toward `+∞`). -/
def jround (q : ℚ) : ℤ := jfloor (q + 1 / 2)

/-- The handler's duration resolution: `num(req.body.durationSec, NaN, 60,
7200)`; when not finite and music is present, probe (`some sec` models a
successful probe returning a finite `sec`, `none` any probe failure) and
clamp the rounded result, else fall back to 1800. -/
def resolveDuration (raw : JSVal) (hasMusic : Bool) (probe : Option ℚ) : ℚ :=
  match num raw .nan 60 7200 with
  | .fin q => q
  | _ =>
    if hasMusic then
      match probe with
      | some sec => min (max ((jround sec : ℚ)) 60) 7200
      | none => 1800
    else 1800

/-- The raw request body fields used by the `/generate` handler. -/
structure RawBody where
  carrier : JSVal
  beatStart : JSVal
  beatEnd : JSVal
  durationSec : JSVal
  toneGain : JSVal
  musicGain : JSVal
  fadeSec : JSVal
  filenameHint : JSVal
deriving Repr

/-- The resolved numeric session parameters (the handler's `const`s). -/
structure SessionSpec where
  carrier : ℚ
  beatStart : ℚ
  beatEnd : ℚ
  durationSec : ℚ
  toneGain : ℚ
  musicGain : ℚ
  fadeSec : ℚ
deriving DecidableEq, Repr

/-- The handler's parameter resolution: the six `num(...)` calls plus the
duration resolution. -/
def buildSpec (b : RawBody) (hasMusic : Bool) (probe : Option ℚ) : SessionSpec where
  carrier := numQ b.carrier 420 100 1000
  beatStart := numQ b.beatStart 12 0 40
  beatEnd := numQ b.beatEnd 14 0 40
  durationSec := resolveDuration b.durationSec hasMusic probe
  toneGain := numQ b.toneGain 0.25 0 1
  musicGain := numQ b.musicGain 0.35 0 1
  fadeSec := numQ b.fadeSec 3 0 10

/-! ## Decimal rendering

JavaScript renders the numbers appearing in filenames through
`toFixed(2)`, `Math.round` and default integer printing; these are modelled
exactly.  The remaining string interpolations (`${toneGain}`, `${dur}`, …)
use JavaScript's general double-to-string conversion, which is abstracted
by `qRepr` below — no claim depends on its digits, only on it being a
function of the value. -/

def digitChar (n : ℕ) : Char := Char.ofNat (48 + n)

/-- Decimal digits of `n`, most significant first (fuel-driven recursion). -/
def natDigitsAux : ℕ → ℕ → List Char
  | 0, _ => []
  | fuel + 1, n =>
    if n < 10 then [digitChar n]
    else natDigitsAux fuel (n / 10) ++ [digitChar (n % 10)]

def natDigits (n : ℕ) : List Char := natDigitsAux (n + 1) n

def natRepr (n : ℕ) : String := ⟨natDigits n⟩

def intRepr (i : ℤ) : String :=
  if i < 0 then "-" ++ natRepr i.natAbs else natRepr i.natAbs

/-- Abstraction of JavaScript's number-to-string conversion used in the
template-literal interpolations; exact digits are irrelevant to every
claim, only determinism matters. -/
def qRepr (q : ℚ) : String :=
  if q.den = 1 then intRepr q.num
  else intRepr q.num ++ "/" ++ natRepr q.den

/-- Two decimal digits with a leading zero (the fractional part of
`toFixed(2)`). -/
def pad2 (n : ℕ) : List Char :=
  if n < 10 then '0' :: natDigits n else natDigits n

/-- Magnitude part of `toFixed(2)`: the integer closest to `x·100` (ties
to the larger), rendered with two digits after the point. -/
def toFixed2Mag (x : ℚ) : String :=
  let n := (jround (x * 100)).toNat
  natRepr (n / 100) ++ "." ++ (⟨pad2 (n % 100)⟩ : String)

/-- JavaScript `x.toFixed(2)`: sign extracted first, magnitude rounded to
the closest hundredth, ties toward the larger magnitude. -/
def toFixed2 (q : ℚ) : String :=
  if q < 0 then "-" ++ toFixed2Mag (-q) else toFixed2Mag q

/-- Model of `.replace(/\./g, 'p')`. -/
def replaceDot (s : String) : String :=
  ⟨s.data.map (fun c => if c = '.' then 'p' else c)⟩

/-! ## Naming / labeling -/

/-- Characters kept by `.replace(/[^\w\-]+/g, '')`: ASCII word characters
and the dash. -/
def isWordDash (c : Char) : Bool :=
  ('A' ≤ c && c ≤ 'Z') || ('a' ≤ c && c ≤ 'z') ||
  ('0' ≤ c && c ≤ '9') || c = '_' || c = '-'

/-- Model of `.replace(/[^\w\-]+/g, '')`. -/
def sanitizeHint (s : String) : String := ⟨s.data.filter isWordDash⟩

/-- Model of `.slice(0, n)` for a non-negative bound. -/
def sliceTo (n : ℕ) (s : String) : String := ⟨s.data.take n⟩

/-- Source `avgBeat = (bs + be) / 2`. -/
def avgBeat (s : SessionSpec) : ℚ := (s.beatStart + s.beatEnd) / 2

/-- Source `prettyBeat`: one value with two decimals when start equals
end, else `start-end`. -/
def prettyBeat (bs be : ℚ) : String :=
  if bs = be then toFixed2 be ++ "Hz"
  else toFixed2 bs ++ "-" ++ toFixed2 be ++ "Hz"

/-- Source `req.body.filenameHint || label`: an absent or empty (falsy)
hint is replaced by the label. -/
def hintBase (hintRaw : JSVal) (label : String) : String :=
  match hintRaw with
  | .undef => label
  | .str s => if s = "" then label else s

/-- Source `hint` expression:
`(req.body.filenameHint || label).toString().replace(/[^\w\-]+/g, '').slice(0, 40) || label`. -/
def hintOrLabel (hintRaw : JSVal) (label : String) : String :=
  let t := sliceTo 40 (sanitizeHint (hintBase hintRaw label))
  if t = "" then label else t

/-- Source `filename` template:
`` `${hint}_${prettyBeat.replace(/\./g,'p')}_${Math.round(dur/60)}min_${uuidv4()}.wav` ``. -/
def buildFilename (s : SessionSpec) (hintRaw : JSVal) (uuid : String) : String :=
  hintOrLabel hintRaw (bandLabel (avgBeat s)) ++ "_" ++
    replaceDot (prettyBeat s.beatStart s.beatEnd) ++ "_" ++
    intRepr (jround (s.durationSec / 60)) ++ "min_" ++ uuid ++ ".wav"

/-! ## Signal graph construction -/

/-- Source `k = (be - bs) / dur`, the Hz/sec slope of the linear ramp. -/
def rampSlope (s : SessionSpec) : ℚ := (s.beatEnd - s.beatStart) / s.durationSec

/-- Source `leftExpr`: `` `${toneGain}*sin(2*PI*${fc}*t)` ``. -/
def leftExpr (s : SessionSpec) : String :=
  qRepr s.toneGain ++ "*sin(2*PI*" ++ qRepr s.carrier ++ "*t)"

/-- Source `rightExpr`:
`` `${toneGain}*sin(2*PI*((${fc}+${bs})*t + 0.5*${k}*t*t))` ``. -/
def rightExpr (s : SessionSpec) : String :=
  qRepr s.toneGain ++ "*sin(2*PI*((" ++ qRepr s.carrier ++ "+" ++
    qRepr s.beatStart ++ ")*t + 0.5*" ++ qRepr (rampSlope s) ++ "*t*t))"

/-- Source `toneGen`: `` `aevalsrc=exprs=${leftExpr}\|${rightExpr}:s=${sr}:d=${dur}` ``,
with `sr = 48000`. -/
def toneGen (s : SessionSpec) : String :=
  "aevalsrc=exprs=" ++ leftExpr s ++ "\\|" ++ rightExpr s ++
    ":s=48000:d=" ++ qRepr s.durationSec

/-- The denotation of a generated channel expression: amplitude scale and
the coefficients of `t` and `t²` inside the `2π·(...)` phase argument of
the sine. -/
structure ChannelTone where
  scale : ℚ
  lin : ℚ
  quad : ℚ
deriving DecidableEq, Repr

/-- Left channel `${toneGain}*sin(2*PI*${fc}*t)`: phase argument `fc·t`. -/
def leftTone (s : SessionSpec) : ChannelTone :=
  { scale := s.toneGain, lin := s.carrier, quad := 0 }

/-- Right channel `${toneGain}*sin(2*PI*((${fc}+${bs})*t + 0.5*${k}*t*t))`:
phase argument `(fc+bs)·t + 0.5·k·t²`. -/
def rightTone (s : SessionSpec) : ChannelTone :=
  { scale := s.toneGain, lin := s.carrier + s.beatStart, quad := 1 / 2 * rampSlope s }

/-- The phase argument divided by `2π` at time `t`. -/
def phaseArgOver2pi (c : ChannelTone) (t : ℚ) : ℚ :=
  c.lin * t + c.quad * t * t

/-- Source `toneFilters` array, joined with `','`. -/
def toneFilters (s : SessionSpec) : String :=
  String.intercalate ","
    ["asetpts=N/SR/TB",
     "afade=t=in:st=0:d=" ++ qRepr s.fadeSec,
     "afade=t=out:st=" ++ qRepr (max 0 (s.durationSec - s.fadeSec)) ++
       ":d=" ++ qRepr s.fadeSec]

/-- Source `musicFilters` array, joined with `','` (`sr = 48000`). -/
def musicFilters (s : SessionSpec) : String :=
  String.intercalate ","
    ["aresample=48000:ocl=stereo",
     "asetpts=N/SR/TB",
     "atrim=0:" ++ qRepr s.durationSec,
     "volume=" ++ qRepr s.musicGain]

/-- Source `filterComplex`, built by the same concatenation sequence as
the handler's `+=` chain. -/
def filterComplex (s : SessionSpec) (hasMusic : Bool) : String :=
  if hasMusic then
    "[0:a]" ++ musicFilters s ++ "[m];" ++
      ("[1:a]" ++ toneFilters s ++ "[t];") ++
      "[m][t]amix=inputs=2:normalize=0:dropout_transition=0[mix];" ++
      "[mix]alimiter=limit=0.95[out]"
  else
    "[0:a]" ++ toneFilters s ++ "[t];" ++ "[t]alimiter=limit=0.95[out]"

/-- Source ffmpeg argument list, in push order. -/
def ffmpegArgs (s : SessionSpec) (hasMusic : Bool) (musicPath : String) : List String :=
  ["-hide_banner", "-loglevel", "error"] ++
    (if hasMusic then ["-stream_loop", "-1", "-i", musicPath] else []) ++
    ["-f", "lavfi", "-i", toneGen s] ++
    ["-filter_complex", filterComplex s hasMusic] ++
    ["-map", "[out]"] ++
    ["-ar", "48000", "-ac", "2", "-c:a", "pcm_s24le"] ++
    ["-f", "wav", "pipe:1"]

/-- The `X-*` metadata headers set before streaming. -/
def xHeaders (s : SessionSpec) : List (String × String) :=
  [("X-Beat-Start-Hz", qRepr s.beatStart),
   ("X-Beat-End-Hz", qRepr s.beatEnd),
   ("X-Carrier-Hz", qRepr s.carrier),
   ("X-Duration-Sec", qRepr s.durationSec),
   ("X-Sample-Rate", "48000"),
   ("X-Bit-Depth", "24"),
   ("X-Session-Label", bandLabel (avgBeat s))]

/-- Everything the handler derives from the resolved spec before spawning
the renderer. -/
structure RenderPlan where
  leftE : String
  rightE : String
  toneGenS : String
  filterGraph : String
  args : List String
  headers : List (String × String)
  filename : String
  contentDisposition : String
deriving DecidableEq, Repr

/-- The handler's plan construction; `uuid` models the `uuidv4()` call and
is the only request-independent input. -/
def buildResponse (s : SessionSpec) (hintRaw : JSVal) (hasMusic : Bool)
    (musicPath uuid : String) : RenderPlan where
  leftE := leftExpr s
  rightE := rightExpr s
  toneGenS := toneGen s
  filterGraph := filterComplex s hasMusic
  args := ffmpegArgs s hasMusic musicPath
  headers := xHeaders s
  filename := buildFilename s hintRaw uuid
  contentDisposition :=
    "attachment; filename=\x22" ++ buildFilename s hintRaw uuid ++ "\x22"

/-! ## Render orchestrator events

The handler registers: `abort` (kill + cleanup) on response `close` and
`error`; `cleanup` plus a guarded 500 on renderer `close`; `cleanup` plus
a guarded 500 on renderer `error`.  `cleanup` attempts an `fs.rm` of the
uploaded file whenever music was uploaded; there is no run-once guard, so
every invocation counts one attempt.  `headersSent` models Node's
`res.headersSent`, which becomes true when the first body byte is piped or
when an error response is written. -/

/-- The JSON body of an error response: `{error: 'Render failed',
details: stderr}` or `{error: 'FFmpeg spawn failed', details: String(err)}`. -/
inductive Resp500 : Type where
  | renderFailed : String → Resp500
  | spawnFailed : String → Resp500
deriving DecidableEq, Repr

structure OrchState where
  rmAttempts : ℕ
  killAttempts : ℕ
  headersSent : Bool
  sent500 : Bool
  stderrBuf : String
  resp : Option Resp500
deriving DecidableEq, Repr

def initialState : OrchState :=
  { rmAttempts := 0, killAttempts := 0, headersSent := false, sent500 := false,
    stderrBuf := "", resp := none }

/-- The lifecycle events that can reach the handler's callbacks after the
renderer is spawned. -/
inductive Sig : Type where
  | resClose : Sig
  | resError : Sig
  | dataChunk : Sig
  | errChunk : String → Sig
  | ffClose : ℤ → Sig
  | ffError : String → Sig
deriving DecidableEq, Repr

/-- Number of `fs.rm` attempts one `cleanup()` call makes (`hasMusic &&
req.file && req.file.path` guards the call). -/
def cleanupCount (hasMusic : Bool) : ℕ := if hasMusic then 1 else 0

/-- One callback dispatch, as registered by the source. -/
def step (hasMusic : Bool) (st : OrchState) (sig : Sig) : OrchState :=
  match sig with
  | .resClose =>
    { st with killAttempts := st.killAttempts + 1,
              rmAttempts := st.rmAttempts + cleanupCount hasMusic }
  | .resError =>
    { st with killAttempts := st.killAttempts + 1,
              rmAttempts := st.rmAttempts + cleanupCount hasMusic }
  | .dataChunk => { st with headersSent := true }
  | .errChunk txt => { st with stderrBuf := st.stderrBuf ++ txt }
  | .ffClose code =>
    let st1 := { st with rmAttempts := st.rmAttempts + cleanupCount hasMusic }
    if code ≠ 0 ∧ st1.headersSent = false then
      { st1 with sent500 := true, headersSent := true,
                 resp := some (.renderFailed st1.stderrBuf) }
    else st1
  | .ffError err =>
    let st1 := { st with rmAttempts := st.rmAttempts + cleanupCount hasMusic }
    if st1.headersSent = false then
      { st1 with sent500 := true, headersSent := true,
                 resp := some (.spawnFailed err) }
    else st1

/-- Dispatch a whole event trace. -/
def run (hasMusic : Bool) (st : OrchState) (sigs : List Sig) : OrchState :=
  sigs.foldl (step hasMusic) st

/-- Signals handled by the `abort` callback (registered on response
`close` and `error`). -/
def isAbortSig : Sig → Bool
  | .resClose => true
  | .resError => true
  | _ => false

/-- Signals whose callback invokes `cleanup()`. -/
def isCleanupSig : Sig → Bool
  | .dataChunk => false
  | .errChunk _ => false
  | _ => true

/-- Renderer-failure signals: spawn error, or exit with non-zero code. -/
def isFailSig : Sig → Bool
  | .ffError _ => true
  | .ffClose code => decide (code ≠ 0)
  | _ => false

/-- Check of a trace that every renderer-failure signal comes after some
streamed byte: scanning left to right, no failure may occur before the
first data chunk. -/
def failsCovered : List Sig → Bool
  | [] => true
  | .dataChunk :: _ => true
  | sg :: rest => !isFailSig sg && failsCovered rest

/-! ## Helper lemmas -/

theorem strAppend_assoc (a b c : String) : a ++ b ++ c = a ++ (b ++ c) := by
  apply String.ext
  simp [String.data_append]

theorem append_split (x a b c : String) (h : a = b ++ c) :
    ∃ p, x ++ a = p ++ c := ⟨x ++ b, by rw [h, ← strAppend_assoc]⟩

/-- A finiteness test on modelled JavaScript numbers
(`Number.isFinite`). -/
def JSNum.isFinite : JSNum → Bool
  | .fin _ => true
  | _ => false

theorem clamp_mem (v lo hi : ℚ) (h : lo ≤ hi) :
    lo ≤ min (max v lo) hi ∧ min (max v lo) hi ≤ hi :=
  ⟨le_min (le_max_right _ _) h, min_le_right _ _⟩

theorem numQ_spec (value : JSVal) (d lo hi : ℚ) (hlh : lo ≤ hi)
    (hd1 : lo ≤ d) (hd2 : d ≤ hi) :
    (lo ≤ numQ value d lo hi ∧ numQ value d lo hi ≤ hi) ∧
    ((toNumber value).isFinite = false → numQ value d lo hi = d) ∧
    (∀ q, toNumber value = .fin q → numQ value d lo hi = min (max q lo) hi) := by
  unfold numQ
  cases h : toNumber value with
  | fin v =>
    refine ⟨clamp_mem v lo hi hlh, ?_, ?_⟩
    · intro hf; simp [JSNum.isFinite] at hf
    · intro q hq; cases hq; rfl
  | nan => exact ⟨⟨hd1, hd2⟩, fun _ => rfl, fun q hq => by cases hq⟩
  | inf => exact ⟨⟨hd1, hd2⟩, fun _ => rfl, fun q hq => by cases hq⟩
  | negInf => exact ⟨⟨hd1, hd2⟩, fun _ => rfl, fun q hq => by cases hq⟩

theorem digitChar_wordDash : ∀ n < 10, isWordDash (digitChar n) = true := by decide

theorem natDigitsAux_wordDash :
    ∀ fuel n c, c ∈ natDigitsAux fuel n → isWordDash c = true := by
  intro fuel
  induction fuel with
  | zero => intro n c hc; simp [natDigitsAux] at hc
  | succ f ih =>
    intro n c hc
    unfold natDigitsAux at hc
    by_cases h : n < 10
    · rw [if_pos h] at hc
      have hc' : c = digitChar n := List.mem_singleton.mp hc
      exact hc' ▸ digitChar_wordDash n h
    · rw [if_neg h] at hc
      rcases List.mem_append.mp hc with h1 | h2
      · exact ih _ c h1
      · have hc' : c = digitChar (n % 10) := List.mem_singleton.mp h2
        exact hc' ▸ digitChar_wordDash (n % 10) (Nat.mod_lt _ (by norm_num))

theorem natDigits_wordDash (n : ℕ) :
    ∀ c ∈ natDigits n, isWordDash c = true :=
  fun c hc => natDigitsAux_wordDash _ _ c hc

theorem natRepr_wordDash (n : ℕ) :
    ∀ c ∈ (natRepr n).data, isWordDash c = true :=
  natDigits_wordDash n

theorem intRepr_wordDash (i : ℤ) :
    ∀ c ∈ (intRepr i).data, isWordDash c = true := by
  intro c hc
  unfold intRepr at hc
  by_cases h : i < 0
  · rw [if_pos h, String.data_append] at hc
    rcases List.mem_append.mp hc with h1 | h2
    · have hc' : c = '-' := by simpa using h1
      subst hc'; decide
    · exact natRepr_wordDash _ c h2
  · rw [if_neg h] at hc
    exact natRepr_wordDash _ c hc

theorem pad2_wordDash (n : ℕ) : ∀ c ∈ pad2 n, isWordDash c = true := by
  intro c hc
  unfold pad2 at hc
  by_cases h : n < 10
  · rw [if_pos h] at hc
    cases hc with
    | head => decide
    | tail a hm => exact natDigits_wordDash n c hm
  · rw [if_neg h] at hc
    exact natDigits_wordDash n c hc

theorem toFixed2Mag_chars (x : ℚ) :
    ∀ c ∈ (toFixed2Mag x).data, isWordDash c = true ∨ c = '.' := by
  intro c hc
  unfold toFixed2Mag at hc
  simp only [String.data_append] at hc
  rcases List.mem_append.mp hc with h1 | h2
  · rcases List.mem_append.mp h1 with h3 | h4
    · exact Or.inl (natRepr_wordDash _ c h3)
    · exact Or.inr (by simpa using h4)
  · exact Or.inl (pad2_wordDash _ c h2)

theorem toFixed2_chars (q : ℚ) :
    ∀ c ∈ (toFixed2 q).data, isWordDash c = true ∨ c = '.' := by
  intro c hc
  unfold toFixed2 at hc
  by_cases h : q < 0
  · rw [if_pos h, String.data_append] at hc
    rcases List.mem_append.mp hc with h1 | h2
    · have hc' : c = '-' := by simpa using h1
      subst hc'; exact Or.inl (by decide)
    · exact toFixed2Mag_chars _ c h2
  · rw [if_neg h] at hc
    exact toFixed2Mag_chars _ c hc

theorem prettyBeat_chars (bs be : ℚ) :
    ∀ c ∈ (prettyBeat bs be).data, isWordDash c = true ∨ c = '.' := by
  intro c hc
  unfold prettyBeat at hc
  by_cases h : bs = be
  · rw [if_pos h, String.data_append] at hc
    rcases List.mem_append.mp hc with h1 | h2
    · exact toFixed2_chars _ c h1
    · have hc' : c = 'H' ∨ c = 'z' := by simpa using h2
      rcases hc' with rfl | rfl <;> exact Or.inl (by decide)
  · rw [if_neg h] at hc
    simp only [String.data_append] at hc
    rcases List.mem_append.mp hc with h1 | h2
    · rcases List.mem_append.mp h1 with h3 | h4
      · rcases List.mem_append.mp h3 with h5 | h6
        · exact toFixed2_chars _ c h5
        · have hc' : c = '-' := by simpa using h6
          subst hc'; exact Or.inl (by decide)
      · exact toFixed2_chars _ c h4
    · have hc' : c = 'H' ∨ c = 'z' := by simpa using h2
      rcases hc' with rfl | rfl <;> exact Or.inl (by decide)

theorem replaceDot_wordDash (s : String)
    (h : ∀ c ∈ s.data, isWordDash c = true ∨ c = '.') :
    ∀ c ∈ (replaceDot s).data, isWordDash c = true := by
  intro c hc
  unfold replaceDot at hc
  simp only [String.data] at hc
  rcases List.mem_map.mp hc with ⟨a, ha, rfl⟩
  by_cases hd : a = '.'
  · rw [if_pos hd]; decide
  · rw [if_neg hd]
    rcases h a ha with h1 | h2
    · exact h1
    · exact absurd h2 hd

theorem sanitizeHint_wordDash (s : String) :
    ∀ c ∈ (sanitizeHint s).data, isWordDash c = true := by
  intro c hc
  unfold sanitizeHint at hc
  simp only [String.data] at hc
  exact (List.mem_filter.mp hc).2

theorem sliceTo_wordDash (n : ℕ) (s : String)
    (h : ∀ c ∈ s.data, isWordDash c = true) :
    ∀ c ∈ (sliceTo n s).data, isWordDash c = true := by
  intro c hc
  unfold sliceTo at hc
  simp only [String.data] at hc
  exact h c (List.mem_of_mem_take hc)

theorem bandLabel_wordDash (q : ℚ) :
    ∀ c ∈ (bandLabel q).data, isWordDash c = true := by
  unfold bandLabel
  split_ifs <;> decide

theorem hintOrLabel_wordDash (hintRaw : JSVal) (label : String)
    (hl : ∀ c ∈ label.data, isWordDash c = true) :
    ∀ c ∈ (hintOrLabel hintRaw label).data, isWordDash c = true := by
  intro c hc
  unfold hintOrLabel at hc
  by_cases h : sliceTo 40 (sanitizeHint (hintBase hintRaw label)) = ""
  · rw [if_pos h] at hc; exact hl c hc
  · rw [if_neg h] at hc
    exact sliceTo_wordDash 40 _ (sanitizeHint_wordDash _) c hc

theorem wordDash_count_dot_zero (l : List Char)
    (h : ∀ c ∈ l, isWordDash c = true) : l.count '.' = 0 := by
  rw [List.count_eq_zero]
  intro hmem
  have := h '.' hmem
  simp [isWordDash] at this

theorem step_counts (hm : Bool) (st : OrchState) (sg : Sig) :
    (step hm st sg).killAttempts =
      st.killAttempts + (if isAbortSig sg then 1 else 0) ∧
    (step hm st sg).rmAttempts =
      st.rmAttempts + cleanupCount hm * (if isCleanupSig sg then 1 else 0) := by
  cases sg <;> simp [step, isAbortSig, isCleanupSig] <;> split <;> simp

theorem run_cons (hm : Bool) (st : OrchState) (sg : Sig) (rest : List Sig) :
    run hm st (sg :: rest) = run hm (step hm st sg) rest := rfl

theorem run_counts (hm : Bool) (tr : List Sig) :
    ∀ st : OrchState,
    (run hm st tr).killAttempts =
      st.killAttempts + (tr.filter (fun sg => isAbortSig sg)).length ∧
    (run hm st tr).rmAttempts =
      st.rmAttempts + cleanupCount hm * (tr.filter (fun sg => isCleanupSig sg)).length := by
  induction tr with
  | nil => intro st; simp [run]
  | cons sg rest ih =>
    intro st
    have hstep := step_counts hm st sg
    have hrest := ih (step hm st sg)
    rw [run_cons]
    constructor
    · rw [hrest.1, hstep.1, List.filter_cons]
      by_cases h : isAbortSig sg <;> simp [h] <;> omega
    · rw [hrest.2, hstep.2, List.filter_cons]
      by_cases h : isCleanupSig sg <;>
        cases hm <;> simp [h, cleanupCount] <;> omega

theorem step_sent500_mono (hm : Bool) (st : OrchState) (sg : Sig)
    (h : st.sent500 = true) : (step hm st sg).sent500 = true := by
  cases sg <;> simp [step, h] <;> split <;> simp [h]

theorem run_sent500_mono (hm : Bool) (tr : List Sig) :
    ∀ st : OrchState, st.sent500 = true → (run hm st tr).sent500 = true := by
  induction tr with
  | nil => intro st h; exact h
  | cons sg rest ih =>
    intro st h
    rw [run_cons]
    exact ih _ (step_sent500_mono hm st sg h)

theorem step_after_headers (hm : Bool) (st : OrchState) (sg : Sig)
    (h : st.headersSent = true) :
    (step hm st sg).headersSent = true ∧ (step hm st sg).sent500 = st.sent500 := by
  cases sg <;> simp [step, h]

theorem run_after_headers (hm : Bool) (tr : List Sig) :
    ∀ st : OrchState, st.headersSent = true →
    (run hm st tr).sent500 = st.sent500 := by
  induction tr with
  | nil => intro st _; rfl
  | cons sg rest ih =>
    intro st h
    have hstep := step_after_headers hm st sg h
    rw [run_cons, ih _ hstep.1, hstep.2]

theorem step_quiet (hm : Bool) (st : OrchState) (sg : Sig)
    (h1 : isFailSig sg = false) (h2 : sg ≠ Sig.dataChunk) :
    (step hm st sg).headersSent = st.headersSent ∧
    (step hm st sg).sent500 = st.sent500 := by
  cases sg with
  | resClose => simp [step]
  | resError => simp [step]
  | dataChunk => exact absurd rfl h2
  | errChunk txt => simp [step]
  | ffError err => simp [isFailSig] at h1
  | ffClose code =>
    have hcode : code = 0 := by simpa [isFailSig] using h1
    subst hcode
    simp [step]

theorem step_hs_eq_sent (hm : Bool) (st : OrchState) (sg : Sig)
    (h2 : sg ≠ Sig.dataChunk) (h : st.headersSent = st.sent500) :
    (step hm st sg).headersSent = (step hm st sg).sent500 := by
  cases sg <;> simp [step, h] at h2 ⊢ <;> split <;> simp [h]

theorem step_fail_sets (hm : Bool) (st : OrchState) (sg : Sig)
    (hf : isFailSig sg = true) (hhs : st.headersSent = false) :
    (step hm st sg).sent500 = true := by
  cases sg with
  | resClose => simp [isFailSig] at hf
  | resError => simp [isFailSig] at hf
  | dataChunk => simp [isFailSig] at hf
  | errChunk txt => simp [isFailSig] at hf
  | ffError err => simp [step, hhs]
  | ffClose code =>
    have hcode : code ≠ 0 := by simpa [isFailSig] using hf
    simp [step, hhs, hcode]

theorem run_nodata_fail (hm : Bool) (tr : List Sig) :
    ∀ st : OrchState, (∀ sg ∈ tr, sg ≠ Sig.dataChunk) →
    st.headersSent = st.sent500 → tr.any isFailSig = true →
    (run hm st tr).sent500 = true := by
  induction tr with
  | nil => intro st _ _ hfail; simp at hfail
  | cons sg rest ih =>
    intro st hnd hinv hfail
    have hnd' : ∀ x ∈ rest, x ≠ Sig.dataChunk :=
      fun x hx => hnd x (List.mem_cons_of_mem _ hx)
    have hsg : sg ≠ Sig.dataChunk := hnd sg (List.mem_cons_self sg rest)
    rw [run_cons]
    by_cases hf : isFailSig sg = true
    · by_cases hhs : st.headersSent = false
      · exact run_sent500_mono hm rest _ (step_fail_sets hm st sg hf hhs)
      · have hs5 : st.sent500 = true := by
          rw [← hinv]
          revert hhs
          cases st.headersSent <;> simp
        exact run_sent500_mono hm rest _ (step_sent500_mono hm st sg hs5)
    · have hfail' : rest.any isFailSig = true := by
        rcases List.any_eq_true.mp hfail with ⟨x, hx, hpx⟩
        rcases List.mem_cons.mp hx with rfl | hx'
        · exact absurd hpx hf
        · exact List.any_eq_true.mpr ⟨x, hx', hpx⟩
      exact ih _ hnd' (step_hs_eq_sent hm st sg hsg hinv) hfail'

theorem run_covered (hm : Bool) (tr : List Sig) :
    ∀ st : OrchState, failsCovered tr = true → st.sent500 = false →
    (run hm st tr).sent500 = false := by
  induction tr with
  | nil => intro st _ h; exact h
  | cons sg rest ih =>
    intro st hcov h5
    rw [run_cons]
    cases sg with
    | dataChunk =>
      have hhs : (step hm st Sig.dataChunk).headersSent = true := by simp [step]
      have : (step hm st Sig.dataChunk).sent500 = st.sent500 := by simp [step]
      rw [run_after_headers hm rest _ hhs, this]
      exact h5
    | resClose =>
      have hcov' : failsCovered rest = true := by
        simpa [failsCovered, isFailSig] using hcov
      have hq := step_quiet hm st Sig.resClose (by simp [isFailSig]) (by simp)
      exact ih _ hcov' (hq.2.trans h5)
    | resError =>
      have hcov' : failsCovered rest = true := by
        simpa [failsCovered, isFailSig] using hcov
      have hq := step_quiet hm st Sig.resError (by simp [isFailSig]) (by simp)
      exact ih _ hcov' (hq.2.trans h5)
    | errChunk txt =>
      have hcov' : failsCovered rest = true := by
        simpa [failsCovered, isFailSig] using hcov
      have hq := step_quiet hm st (Sig.errChunk txt) (by simp [isFailSig]) (by simp)
      exact ih _ hcov' (hq.2.trans h5)
    | ffError err =>
      have : False := by simpa [failsCovered, isFailSig] using hcov
      exact this.elim
    | ffClose code =>
      have hcode : code = 0 ∧ failsCovered rest = true := by
        by_cases hc : code = 0
        · refine ⟨hc, ?_⟩
          simpa [failsCovered, isFailSig, hc] using hcov
        · exfalso
          simpa [failsCovered, isFailSig, hc] using hcov
      have hq := step_quiet hm st (Sig.ffClose code)
        (by simp [isFailSig, hcode.1]) (by simp)
      exact ih _ hcode.2 (hq.2.trans h5)

theorem resolveDuration_fin {raw : JSVal} {v : ℚ} (h : toNumber raw = .fin v)
    (hm : Bool) (probe : Option ℚ) :
    resolveDuration raw hm probe = min (max v 60) 7200 := by
  unfold resolveDuration num
  rw [h]

theorem resolveDuration_notfin {raw : JSVal} (h : (toNumber raw).isFinite = false)
    (hm : Bool) (probe : Option ℚ) :
    resolveDuration raw hm probe =
      if hm then
        (match probe with
         | some sec => min (max ((jround sec : ℚ)) 60) 7200
         | none => 1800)
      else 1800 := by
  unfold resolveDuration num
  cases htn : toNumber raw with
  | fin v => rw [htn] at h; simp [JSNum.isFinite] at h
  | nan => rfl
  | inf => rfl
  | negInf => rfl

/-- A convenient concrete resolved spec (420 Hz carrier, 8→12 Hz beat,
600 s, default gains and fade) used by the witness statements. -/
def sampleSpec : SessionSpec :=
  { carrier := 420, beatStart := 8, beatEnd := 12, durationSec := 600,
    toneGain := 1 / 4, musicGain := 7 / 20, fadeSec := 3 }

/-! ## Claims -/

/-- C1 counterexample: the claim says an empty input yields exactly the
documented default, but JavaScript's `Number('')` is `0`, which is finite,
so an empty `carrier` field resolves to the clamped value `100` — not the
default `420`. -/
theorem C1_empty_string_counterexample :
    (buildSpec
      { carrier := .str "", beatStart := .undef, beatEnd := .undef,
        durationSec := .undef, toneGain := .undef, musicGain := .undef,
        fadeSec := .undef, filenameHint := .undef } false none).carrier = 100 ∧
    (100 : ℚ) ≠ 420 := by
  constructor
  · decide
  · decide

/-- C1 (amended): every numeric `SessionSpec` field resolves inside its
documented range and the resolver is total (never raises); an input whose
`Number(...)` conversion is not finite (absent, non-numeric, `NaN`,
`±Infinity`) yields exactly the documented default, and an input whose
conversion is finite — including the empty string, which converts to `0` —
is clamped to the range's boundary, never returned raw. -/
theorem C1_param_resolution_amended (b : RawBody) (hm : Bool) (probe : Option ℚ) :
    ((100 ≤ (buildSpec b hm probe).carrier ∧ (buildSpec b hm probe).carrier ≤ 1000) ∧
      ((toNumber b.carrier).isFinite = false → (buildSpec b hm probe).carrier = 420) ∧
      (∀ q, toNumber b.carrier = .fin q →
        (buildSpec b hm probe).carrier = min (max q 100) 1000)) ∧
    ((0 ≤ (buildSpec b hm probe).beatStart ∧ (buildSpec b hm probe).beatStart ≤ 40) ∧
      ((toNumber b.beatStart).isFinite = false → (buildSpec b hm probe).beatStart = 12) ∧
      (∀ q, toNumber b.beatStart = .fin q →
        (buildSpec b hm probe).beatStart = min (max q 0) 40)) ∧
    ((0 ≤ (buildSpec b hm probe).beatEnd ∧ (buildSpec b hm probe).beatEnd ≤ 40) ∧
      ((toNumber b.beatEnd).isFinite = false → (buildSpec b hm probe).beatEnd = 14) ∧
      (∀ q, toNumber b.beatEnd = .fin q →
        (buildSpec b hm probe).beatEnd = min (max q 0) 40)) ∧
    ((0 ≤ (buildSpec b hm probe).toneGain ∧ (buildSpec b hm probe).toneGain ≤ 1) ∧
      ((toNumber b.toneGain).isFinite = false → (buildSpec b hm probe).toneGain = 0.25) ∧
      (∀ q, toNumber b.toneGain = .fin q →
        (buildSpec b hm probe).toneGain = min (max q 0) 1)) ∧
    ((0 ≤ (buildSpec b hm probe).musicGain ∧ (buildSpec b hm probe).musicGain ≤ 1) ∧
      ((toNumber b.musicGain).isFinite = false → (buildSpec b hm probe).musicGain = 0.35) ∧
      (∀ q, toNumber b.musicGain = .fin q →
        (buildSpec b hm probe).musicGain = min (max q 0) 1)) ∧
    ((0 ≤ (buildSpec b hm probe).fadeSec ∧ (buildSpec b hm probe).fadeSec ≤ 10) ∧
      ((toNumber b.fadeSec).isFinite = false → (buildSpec b hm probe).fadeSec = 3) ∧
      (∀ q, toNumber b.fadeSec = .fin q →
        (buildSpec b hm probe).fadeSec = min (max q 0) 10)) := by
  refine ⟨?_, ?_, ?_, ?_, ?_, ?_⟩
  · exact numQ_spec b.carrier 420 100 1000 (by norm_num) (by norm_num) (by norm_num)
  · exact numQ_spec b.beatStart 12 0 40 (by norm_num) (by norm_num) (by norm_num)
  · exact numQ_spec b.beatEnd 14 0 40 (by norm_num) (by norm_num) (by norm_num)
  · exact numQ_spec b.toneGain 0.25 0 1 (by norm_num) (by norm_num) (by norm_num)
  · exact numQ_spec b.musicGain 0.35 0 1 (by norm_num) (by norm_num) (by norm_num)
  · exact numQ_spec b.fadeSec 3 0 10 (by norm_num) (by norm_num) (by norm_num)

/-- Witness for C1 (amended): an out-of-range carrier of 5000 is clamped
to 1000. -/
theorem C1_param_resolution_amended_witness :
    toNumber (JSVal.str "5000") = JSNum.fin 5000 ∧
    (buildSpec
      { carrier := .str "5000", beatStart := .undef, beatEnd := .undef,
        durationSec := .undef, toneGain := .undef, musicGain := .undef,
        fadeSec := .undef, filenameHint := .undef } false none).carrier =
      min (max 5000 100) 1000 :=
  ⟨by decide, (C1_param_resolution_amended _ false none).1.2.2 5000 (by decide)⟩

/-- C2: a finite-converting `durationSec` is clamped to `[60, 7200]` and
used regardless of music presence or probe outcome; otherwise, with music,
a successful probe is rounded to the nearest second and clamped, a failed
probe falls back to 1800; without music the duration is 1800; in every
case the resolved duration lies in `[60, 7200]`. -/
theorem C2_duration_priority (raw : JSVal) (hm : Bool) (probe : Option ℚ) :
    (∀ q, toNumber raw = .fin q →
      resolveDuration raw hm probe = min (max q 60) 7200) ∧
    ((toNumber raw).isFinite = false →
      (∀ sec, resolveDuration raw true (some sec) =
        min (max ((jround sec : ℚ)) 60) 7200) ∧
      resolveDuration raw true none = 1800 ∧
      (∀ pr, resolveDuration raw false pr = 1800)) ∧
    (60 ≤ resolveDuration raw hm probe ∧ resolveDuration raw hm probe ≤ 7200) := by
  refine ⟨?_, ?_, ?_⟩
  · intro q hq
    exact resolveDuration_fin hq hm probe
  · intro hnf
    refine ⟨?_, ?_, ?_⟩
    · intro sec
      rw [resolveDuration_notfin hnf true (some sec)]
      rfl
    · rw [resolveDuration_notfin hnf true none]
      rfl
    · intro pr
      rw [resolveDuration_notfin hnf false pr]
      rfl
  · cases htn : toNumber raw with
    | fin v =>
      rw [resolveDuration_fin htn hm probe]
      exact clamp_mem v 60 7200 (by norm_num)
    | nan =>
      rw [resolveDuration_notfin (by rw [htn]; rfl) hm probe]
      cases hm with
      | false => norm_num
      | true =>
        cases probe with
        | none => norm_num
        | some sec => exact clamp_mem _ 60 7200 (by norm_num)
    | inf =>
      rw [resolveDuration_notfin (by rw [htn]; rfl) hm probe]
      cases hm with
      | false => norm_num
      | true =>
        cases probe with
        | none => norm_num
        | some sec => exact clamp_mem _ 60 7200 (by norm_num)
    | negInf =>
      rw [resolveDuration_notfin (by rw [htn]; rfl) hm probe]
      cases hm with
      | false => norm_num
      | true =>
        cases probe with
        | none => norm_num
        | some sec => exact clamp_mem _ 60 7200 (by norm_num)

/-- Witness for C2: an explicit 600-second duration wins over a probe
result of 45 seconds. -/
theorem C2_duration_priority_witness :
    toNumber (JSVal.str "600") = JSNum.fin 600 ∧
    resolveDuration (JSVal.str "600") true (some 45) = min (max 600 60) 7200 :=
  ⟨by decide, (C2_duration_priority (JSVal.str "600") true (some 45)).1 600 (by decide)⟩

/-- C3: the band label of the average beat is Delta below 4 Hz, Theta on
`[4, 8)`, Alpha on `[8, 12)`, Beta on `[12, 20]` and Custom above 20 Hz,
with the stated boundary values. -/
theorem C3_band_label (s : SessionSpec) (q : ℚ) :
    avgBeat s = (s.beatStart + s.beatEnd) / 2 ∧
    (q < 4 → bandLabel q = "Delta") ∧
    (4 ≤ q → q < 8 → bandLabel q = "Theta") ∧
    (8 ≤ q → q < 12 → bandLabel q = "Alpha") ∧
    (12 ≤ q → q ≤ 20 → bandLabel q = "Beta") ∧
    (20 < q → bandLabel q = "Custom") ∧
    bandLabel 12 = "Beta" ∧ bandLabel 20 = "Beta" ∧
    bandLabel (11999 / 1000) = "Alpha" ∧
    bandLabel (20001 / 1000) = "Custom" ∧ bandLabel 0 = "Delta" := by
  refine ⟨rfl, ?_, ?_, ?_, ?_, ?_, by decide, by decide, by decide, by decide, by decide⟩
  · intro h
    unfold bandLabel
    rw [if_neg (by rintro ⟨h1, _⟩; linarith), if_neg (by rintro ⟨h1, _⟩; linarith),
      if_neg (by rintro ⟨h1, _⟩; linarith), if_pos h]
  · intro h4 h8
    unfold bandLabel
    rw [if_neg (by rintro ⟨h1, _⟩; linarith), if_neg (by rintro ⟨h1, _⟩; linarith),
      if_pos ⟨h4, h8⟩]
  · intro h8 h12
    unfold bandLabel
    rw [if_neg (by rintro ⟨h1, _⟩; linarith), if_pos ⟨h8, h12⟩]
  · intro h12 h20
    unfold bandLabel
    rw [if_pos ⟨h12, h20⟩]
  · intro h
    unfold bandLabel
    rw [if_neg (by rintro ⟨_, h2⟩; linarith), if_neg (by rintro ⟨_, h2⟩; linarith),
      if_neg (by rintro ⟨_, h2⟩; linarith), if_neg (by intro h2; linarith)]

/-- Witness for C3: an average beat of 10 Hz labels Alpha. -/
theorem C3_band_label_witness :
    (8 : ℚ) ≤ 10 ∧ (10 : ℚ) < 12 ∧ bandLabel 10 = "Alpha" :=
  ⟨by decide, by decide, (C3_band_label sampleSpec 10).2.2.2.1 (by decide) (by decide)⟩

/-- C4: the left channel phase argument is `2π·fc·t` and the right channel
phase argument is `2π·((fc+bs)·t + 0.5·k·t²)` with `k = (be−bs)/dur`, both
channels scaled by `toneGain`; when `bs = be` the slope `k` is exactly 0
and the right phase reduces to `2π·(fc+bs)·t`. -/
theorem C4_phase_ramp (s : SessionSpec) (t : ℚ) :
    (leftTone s).scale = s.toneGain ∧ (rightTone s).scale = s.toneGain ∧
    phaseArgOver2pi (leftTone s) t = s.carrier * t ∧
    phaseArgOver2pi (rightTone s) t =
      (s.carrier + s.beatStart) * t +
        1 / 2 * ((s.beatEnd - s.beatStart) / s.durationSec) * (t * t) ∧
    (s.beatStart = s.beatEnd →
      rampSlope s = 0 ∧
      phaseArgOver2pi (rightTone s) t = (s.carrier + s.beatStart) * t) := by
  refine ⟨rfl, rfl, ?_, ?_, ?_⟩
  · unfold phaseArgOver2pi leftTone
    ring
  · unfold phaseArgOver2pi rightTone rampSlope
    ring
  · intro h
    have hk : rampSlope s = 0 := by
      unfold rampSlope
      rw [h, sub_self, zero_div]
    refine ⟨hk, ?_⟩
    unfold phaseArgOver2pi rightTone
    rw [hk]
    ring

/-- Witness for C4: at equal beat endpoints the ramp slope is zero. -/
theorem C4_phase_ramp_witness :
    rampSlope
      { carrier := 420, beatStart := 10, beatEnd := 10, durationSec := 600,
        toneGain := 1 / 4, musicGain := 7 / 20, fadeSec := 3 } = 0 :=
  ((C4_phase_ramp _ 1).2.2.2.2 rfl).1

/-- Spec-side hint-or-label, following the spec's words: the sanitized,
truncated hint if that result is non-empty, else the band label (used only
to compare with the source-side `hintOrLabel`). -/
def specHintOrLabel (hintRaw : JSVal) (label : String) : String :=
  match hintRaw with
  | .undef => label
  | .str s =>
    if sliceTo 40 (sanitizeHint s) = "" then label
    else sliceTo 40 (sanitizeHint s)

/-- Spec-side beat descriptor, following the spec's words: a single
2-decimal value when the endpoints agree, else `start-end`. -/
def specBeatDescriptor (bs be : ℚ) : String :=
  if bs = be then toFixed2 bs ++ "Hz"
  else toFixed2 bs ++ "-" ++ toFixed2 be ++ "Hz"

/-- Spec-side filename, following the spec's words (compared with the
source-side `buildFilename`). -/
def specFilename (s : SessionSpec) (hintRaw : JSVal) (uuid : String) : String :=
  specHintOrLabel hintRaw (bandLabel (avgBeat s)) ++ "_" ++
    replaceDot (specBeatDescriptor s.beatStart s.beatEnd) ++ "_" ++
    intRepr (jround (s.durationSec / 60)) ++ "min_" ++ uuid ++ ".wav"

theorem bandLabel_fixed (q : ℚ) :
    sliceTo 40 (sanitizeHint (bandLabel q)) = bandLabel q ∧ bandLabel q ≠ "" := by
  unfold bandLabel
  split_ifs <;> exact ⟨by decide, by decide⟩

theorem hintOrLabel_eq_spec (hintRaw : JSVal) (label : String)
    (hfix : sliceTo 40 (sanitizeHint label) = label) (hne : label ≠ "") :
    hintOrLabel hintRaw label = specHintOrLabel hintRaw label := by
  cases hintRaw with
  | undef =>
    simp only [hintOrLabel, hintBase, specHintOrLabel, hfix]
    rw [if_neg hne]
  | str s =>
    by_cases hs : s = ""
    · subst hs
      have hbase : hintBase (JSVal.str "") label = label := rfl
      have hempty : sliceTo 40 (sanitizeHint "") = "" := rfl
      simp only [hintOrLabel, specHintOrLabel, hbase, hfix, hempty]
      rw [if_neg hne]
      simp
    · simp only [hintOrLabel, hintBase, specHintOrLabel, if_neg hs]

theorem prettyBeat_eq_spec (bs be : ℚ) :
    prettyBeat bs be = specBeatDescriptor bs be := by
  unfold prettyBeat specBeatDescriptor
  by_cases h : bs = be
  · rw [if_pos h, if_pos h, h]
  · rw [if_neg h, if_neg h]

/-- C5: the handler's filename is exactly
`{hint-or-label}_{descriptor with dots replaced by p}_{round(dur/60)}min_{uuid}.wav`,
where the descriptor is a single 2-decimal value when the beat endpoints
agree and `start-end` otherwise, and hint-or-label is the sanitized
40-char-truncated hint when non-empty, else the band label. -/
theorem C5_filename_format (s : SessionSpec) (hintRaw : JSVal) (uuid : String) :
    buildFilename s hintRaw uuid = specFilename s hintRaw uuid ∧
    prettyBeat 14 18 = "14.00-18.00Hz" ∧
    prettyBeat 8 8 = "8.00Hz" ∧
    replaceDot (prettyBeat 14 18) = "14p00-18p00Hz" := by
  refine ⟨?_, by decide, by decide, by decide⟩
  unfold buildFilename specFilename
  rw [hintOrLabel_eq_spec hintRaw _ (bandLabel_fixed _).1 (bandLabel_fixed _).2,
    prettyBeat_eq_spec]

/-- C6: the constructed filter graph always ends with the 0.95 peak
limiter, and with music present the streams are summed by a 2-input
`amix` stage with `normalize=0`. -/
theorem C6_mix_limiter (s : SessionSpec) (hm : Bool) :
    (∃ p, filterComplex s hm = p ++ "alimiter=limit=0.95[out]") ∧
    (∃ p q, filterComplex s true = p ++ ("amix=inputs=2:normalize=0" ++ q)) := by
  constructor
  · cases hm with
    | false =>
      have hfc : filterComplex s false =
          ("[0:a]" ++ toneFilters s ++ "[t];") ++ "[t]alimiter=limit=0.95[out]" := rfl
      rw [hfc]
      exact append_split _ _ "[t]" _ rfl
    | true =>
      have hfc : filterComplex s true =
          ("[0:a]" ++ musicFilters s ++ "[m];" ++
            ("[1:a]" ++ toneFilters s ++ "[t];") ++
            "[m][t]amix=inputs=2:normalize=0:dropout_transition=0[mix];") ++
          "[mix]alimiter=limit=0.95[out]" := rfl
      rw [hfc]
      exact append_split _ _ "[mix]" _ rfl
  · refine ⟨"[0:a]" ++ musicFilters s ++ "[m];" ++
      ("[1:a]" ++ toneFilters s ++ "[t];") ++ "[m][t]",
      ":dropout_transition=0[mix];" ++ "[mix]alimiter=limit=0.95[out]", ?_⟩
    apply String.ext
    simp [filterComplex, String.data_append, List.append_assoc]

/-- C7 counterexample: after a client abort (`resClose`) the kill makes
the renderer exit, so its `close` callback fires too and `cleanup()` runs
a second time — two temp-file deletion attempts, not exactly one. -/
theorem C7_double_cleanup_counterexample :
    (run true initialState [Sig.resClose, Sig.ffClose 137]).rmAttempts = 2 ∧
    (2 : ℕ) ≠ 1 := by
  constructor
  · decide
  · decide

/-- C7 (amended): cleanup is attempt-per-signal rather than exactly-once:
every abort signal adds one kill attempt, every cleanup-bearing signal
(response close/error, renderer close/error) adds one deletion attempt
when music was uploaded, and a client abort after process start therefore
produces at least one deletion attempt and at least one termination
attempt (each attempt is error-tolerant, so repeats are harmless). -/
theorem C7_cleanup_counts_amended (hm : Bool) (tr : List Sig) :
    ((run hm initialState tr).killAttempts =
      (tr.filter (fun sg => isAbortSig sg)).length ∧
     (run hm initialState tr).rmAttempts =
      cleanupCount hm * (tr.filter (fun sg => isCleanupSig sg)).length) ∧
    (Sig.resClose ∈ tr →
      1 ≤ (run hm initialState tr).killAttempts ∧
      (hm = true → 1 ≤ (run hm initialState tr).rmAttempts)) := by
  have hc := run_counts hm tr initialState
  have hkill : (run hm initialState tr).killAttempts =
      (tr.filter (fun sg => isAbortSig sg)).length := by
    rw [hc.1]; simp [initialState]
  have hrm : (run hm initialState tr).rmAttempts =
      cleanupCount hm * (tr.filter (fun sg => isCleanupSig sg)).length := by
    rw [hc.2]; simp [initialState]
  refine ⟨⟨hkill, hrm⟩, ?_⟩
  intro hmem
  constructor
  · rw [hkill]
    exact List.length_pos.2
      (List.ne_nil_of_mem (List.mem_filter.mpr ⟨hmem, rfl⟩))
  · intro hmm
    subst hmm
    rw [hrm]
    have : 0 < (tr.filter (fun sg => isCleanupSig sg)).length :=
      List.length_pos.2
        (List.ne_nil_of_mem (List.mem_filter.mpr ⟨hmem, rfl⟩))
    simpa [cleanupCount] using this

/-- Witness for C7 (amended): the abort-then-close trace has at least one
kill attempt. -/
theorem C7_cleanup_counts_amended_witness :
    Sig.resClose ∈ [Sig.resClose, Sig.ffClose 137] ∧
    1 ≤ (run true initialState [Sig.resClose, Sig.ffClose 137]).killAttempts :=
  ⟨by decide,
   ((C7_cleanup_counts_amended true [Sig.resClose, Sig.ffClose 137]).2 (by decide)).1⟩

theorem failSig_isCleanup (sg : Sig) (h : isFailSig sg = true) :
    isCleanupSig sg = true := by
  cases sg <;> simp [isFailSig, isCleanupSig] at h ⊢

/-- C8: every renderer failure (non-zero exit or spawn error) triggers a
temp-file deletion attempt, and the 500 diagnostic response is emitted exactly
when no response bytes have been streamed: any failure in a byte-free
trace produces the 500, while a trace in which every failure comes after
streamed bytes never produces one; the emitted body carries the renderer's
accumulated error-stream text on a non-zero exit, or the spawn error on a
spawn failure, and the error stream accumulates chunk by chunk. -/
theorem C8_failure_response (hm : Bool) (tr : List Sig) :
    (tr.any isFailSig = true → hm = true →
      1 ≤ (run hm initialState tr).rmAttempts) ∧
    ((∀ sg ∈ tr, sg ≠ Sig.dataChunk) → tr.any isFailSig = true →
      (run hm initialState tr).sent500 = true) ∧
    (failsCovered tr = true → (run hm initialState tr).sent500 = false) ∧
    (∀ (st : OrchState) (c : ℤ), c ≠ 0 → st.headersSent = false →
      (step hm st (Sig.ffClose c)).resp = some (Resp500.renderFailed st.stderrBuf)) ∧
    (∀ (st : OrchState) (err : String), st.headersSent = false →
      (step hm st (Sig.ffError err)).resp = some (Resp500.spawnFailed err)) ∧
    (∀ (st : OrchState) (txt : String),
      (step hm st (Sig.errChunk txt)).stderrBuf = st.stderrBuf ++ txt) := by
  refine ⟨?_, ?_, ?_, ?_, ?_, ?_⟩
  · intro hfail hmm
    subst hmm
    rcases List.any_eq_true.mp hfail with ⟨x, hx, hpx⟩
    have hrm : (run true initialState tr).rmAttempts =
        cleanupCount true * (tr.filter (fun sg => isCleanupSig sg)).length := by
      rw [(run_counts true tr initialState).2]; simp [initialState]
    rw [hrm]
    have : 0 < (tr.filter (fun sg => isCleanupSig sg)).length :=
      List.length_pos.2
        (List.ne_nil_of_mem (List.mem_filter.mpr ⟨hx, failSig_isCleanup x hpx⟩))
    simpa [cleanupCount] using this
  · intro hnd hfail
    exact run_nodata_fail hm tr initialState hnd rfl hfail
  · intro hcov
    exact run_covered hm tr initialState hcov rfl
  · intro st c hc hhs
    simp [step, hhs, hc]
  · intro st err hhs
    simp [step, hhs]
  · intro st txt
    simp [step]

/-- Witness for C8: a lone non-zero renderer exit with no bytes streamed
produces the 500. -/
theorem C8_failure_response_witness :
    ((∀ sg ∈ [Sig.ffClose 1], sg ≠ Sig.dataChunk) ∧
      [Sig.ffClose 1].any isFailSig = true) ∧
    (run true initialState [Sig.ffClose 1]).sent500 = true :=
  ⟨⟨by decide, by decide⟩,
   (C8_failure_response true [Sig.ffClose 1]).2.1 (by decide) (by decide)⟩

theorem minUnderscore_chars :
    ∀ c ∈ ("min_" : String).data, isWordDash c = true := by decide

/-- C9: whatever string arrives as `filenameHint`, every character of the
computed download filename is in `[A-Za-z0-9_-]` except for exactly one
dot, the one of the trailing `.wav`; in particular the filename contains
no quote, no whitespace and no path separator, provided the unique id is
itself made of word characters and dashes (as `uuidv4` output is). -/
theorem C9_filename_safety (s : SessionSpec) (hintRaw : JSVal) (uuid : String)
    (huuid : ∀ c ∈ uuid.data, isWordDash c = true) :
    (∀ c ∈ (buildFilename s hintRaw uuid).data, isWordDash c = true ∨ c = '.') ∧
    (buildFilename s hintRaw uuid).data.count '.' = 1 ∧
    (∃ p, buildFilename s hintRaw uuid = p ++ ".wav") ∧
    '"' ∉ (buildFilename s hintRaw uuid).data ∧
    ' ' ∉ (buildFilename s hintRaw uuid).data ∧
    '/' ∉ (buildFilename s hintRaw uuid).data ∧
    '\\' ∉ (buildFilename s hintRaw uuid).data := by
  have hhint := hintOrLabel_wordDash hintRaw _ (bandLabel_wordDash (avgBeat s))
  have hpretty := replaceDot_wordDash _ (prettyBeat_chars s.beatStart s.beatEnd)
  have hint' := intRepr_wordDash (jround (s.durationSec / 60))
  have hmem : ∀ c ∈ (buildFilename s hintRaw uuid).data,
      isWordDash c = true ∨ c = '.' := by
    intro c hc
    simp only [buildFilename, String.data_append, List.mem_append] at hc
    rcases hc with ((((((h1 | h2) | h3) | h4) | h5) | h6) | h7) | h8
    · exact Or.inl (hhint c h1)
    · have : c = '_' := by simpa using h2
      subst this; exact Or.inl (by decide)
    · exact Or.inl (hpretty c h3)
    · have : c = '_' := by simpa using h4
      subst this; exact Or.inl (by decide)
    · exact Or.inl (hint' c h5)
    · exact Or.inl (minUnderscore_chars c h6)
    · exact Or.inl (huuid c h7)
    · have : c = '.' ∨ c = 'w' ∨ c = 'a' ∨ c = 'v' := by simpa using h8
      rcases this with rfl | rfl | rfl | rfl
      · exact Or.inr rfl
      · exact Or.inl (by decide)
      · exact Or.inl (by decide)
      · exact Or.inl (by decide)
  have hcount : (buildFilename s hintRaw uuid).data.count '.' = 1 := by
    simp only [buildFilename, String.data_append, List.count_append]
    rw [wordDash_count_dot_zero _ hhint, wordDash_count_dot_zero _ hpretty,
      wordDash_count_dot_zero _ hint', wordDash_count_dot_zero _ huuid,
      wordDash_count_dot_zero _ minUnderscore_chars]
    decide
  have hno : ∀ c₀ : Char, isWordDash c₀ = false → c₀ ≠ '.' →
      c₀ ∉ (buildFilename s hintRaw uuid).data := by
    intro c₀ hw hd hm
    rcases hmem c₀ hm with h | h
    · rw [hw] at h; cases h
    · exact hd h
  exact ⟨hmem, hcount, ⟨_, rfl⟩,
    hno '"' (by decide) (by decide),
    hno ' ' (by decide) (by decide),
    hno '/' (by decide) (by decide),
    hno '\\' (by decide) (by decide)⟩

/-- Witness for C9: a hostile hint full of quotes, spaces, dots and path
separators still yields a filename with exactly one dot. -/
theorem C9_filename_safety_witness :
    (∀ c ∈ ("abc-123" : String).data, isWordDash c = true) ∧
    (buildFilename sampleSpec (JSVal.str "../a b\"/c.wav") "abc-123").data.count '.' = 1 :=
  ⟨by decide,
   (C9_filename_safety sampleSpec (JSVal.str "../a b\"/c.wav") "abc-123" (by decide)).2.1⟩

/-- C10: plan construction is deterministic — two renders of the same
resolved spec, hint, music presence, music path and probe outcome get
identical tone expressions, filter graph, renderer argument list and
`X-*` headers; only the unique-id segment of the filename differs. -/
theorem C10_plan_determinism (s : SessionSpec) (hintRaw : JSVal) (hm : Bool)
    (musicPath u1 u2 : String) :
    (buildResponse s hintRaw hm musicPath u1).leftE =
      (buildResponse s hintRaw hm musicPath u2).leftE ∧
    (buildResponse s hintRaw hm musicPath u1).rightE =
      (buildResponse s hintRaw hm musicPath u2).rightE ∧
    (buildResponse s hintRaw hm musicPath u1).toneGenS =
      (buildResponse s hintRaw hm musicPath u2).toneGenS ∧
    (buildResponse s hintRaw hm musicPath u1).filterGraph =
      (buildResponse s hintRaw hm musicPath u2).filterGraph ∧
    (buildResponse s hintRaw hm musicPath u1).args =
      (buildResponse s hintRaw hm musicPath u2).args ∧
    (buildResponse s hintRaw hm musicPath u1).headers =
      (buildResponse s hintRaw hm musicPath u2).headers ∧
    (∃ pre,
      (buildResponse s hintRaw hm musicPath u1).filename = pre ++ u1 ++ ".wav" ∧
      (buildResponse s hintRaw hm musicPath u2).filename = pre ++ u2 ++ ".wav") :=
  ⟨rfl, rfl, rfl, rfl, rfl, rfl, ⟨_, rfl, rfl⟩⟩

end VerifyBeats
